import Mathlib

/-!
Shallow embedding of the file-uploader backend (Express + Prisma + passport +
multer) and verification of its specification claims.

Source files embedded:
- `src/src/index.ts` (server wiring and the `/auth` router: signup, login, logout)
- `src/src/routes/file.ts` (upload, list, folders, move, delete, download)
- `src/unnamed/part_001` (passport LocalStrategy / serializeUser / deserializeUser,
  and the multer configuration: disk storage, fileFilter, 5 MiB size limit)

The relational store (Prisma over PostgreSQL) is modelled as lists of rows with
single-row atomic create/update/delete; the filesystem (`uploads/` directory) as
the list of paths currently holding content; bcryptjs as an idealized
collision-free hash that, like the real library, rejects non-string input with
an "Illegal arguments" error.
-/

deriving instance DecidableEq for Except

namespace FileUploader

/-- A row of the `User` table: id, unique username, unique email, and the
stored (hashed) password credential. -/
structure User where
  id : Nat
  username : String
  email : String
  password : String
deriving Repr, DecidableEq

/-- A row of the `File` table (prisma schema: name, filename, size stored as a
string, disk path, owning userId, optional folderId). -/
structure FileRec where
  id : Nat
  name : String
  filename : String
  size : String
  path : String
  userId : Nat
  folderId : Option Nat
deriving Repr, DecidableEq

/-- A row of the `Folder` table. -/
structure Folder where
  id : Nat
  name : String
  userId : Nat
deriving Repr, DecidableEq

/-- The three relations of the database. -/
structure DB where
  users : List User
  files : List FileRec
  folders : List Folder
deriving Repr, DecidableEq

/-- Full system state: database plus the set of disk paths currently holding
uploaded content (the `uploads/` directory). -/
structure Sys where
  db : DB
  disk : List String
deriving Repr, DecidableEq

/-- The typed failures the routes produce (each tagged with the HTTP shape the
route sends). -/
inductive Err where
  /-- 401 `Not authenticated` from the `requireAuth` middleware. -/
  | unauthenticated
  /-- 404 `File not found` (absent or not owned by the caller). -/
  | notFound
  /-- 404 `File not found on server` (owned metadata row, content missing). -/
  | notFoundOnServer
  /-- 400 from the multer `fileFilter` rejection (`Only images, PDFs, and documents allowed!`). -/
  | rejectedType
  /-- 400 `File too large. Maximum size is 5MB` (multer `LIMIT_FILE_SIZE`). -/
  | tooLarge
  /-- 400 `No file uploaded` when the multipart field is missing. -/
  | noFile
  /-- 400/500 carrying a database or library error message. -/
  | dbError (msg : String)
  /-- bcryptjs rejection when `hash` is called on a non-string value. -/
  | illegalArguments
deriving Repr, DecidableEq

/-! ### The bcrypt black box

`src/index.ts` line 65 calls `bcrypt.hash(passport, 10)`: the first argument is
the imported `passport` module object, not the `password` string destructured
from the request body.  bcryptjs type-checks its input and rejects any
non-string with `Error("Illegal arguments: ...")`.  We model the JavaScript
value passed to `hash` explicitly so the embedding can express that call. -/

/-- A JavaScript value that the code passes to `bcrypt.hash`: either a string,
or the `passport` module object (the value actually passed by the signup
handler). -/
inductive JsValue where
  | str (s : String)
  | passportModule
deriving Repr, DecidableEq

/-- bcryptjs `hash`: an idealized collision-free one-way hash on strings;
rejects non-string input with `Illegal arguments`, as the real library does. -/
def bcryptHash (v : JsValue) : Except Err String :=
  match v with
  | .str s => .ok ("$2a$10$" ++ s)
  | .passportModule => .error .illegalArguments

/-- bcryptjs `compare raw hash`: true exactly when `hash` is the hash of `raw`
(the fixed contract of the black-box hash/verify capability). -/
def bcryptCompare (raw hash : String) : Bool :=
  hash == "$2a$10$" ++ raw

/-! ### Identity Store: signup, LocalStrategy verify, deserializeUser, login -/

/-- POST `/auth/signup` (src/index.ts lines 60-79): destructures
`{username, password, email}`, computes `bcrypt.hash(passport, 10)` — note the
argument is the passport module, not `password` — then creates the User row
(unique constraints on username and email).  Any thrown error is caught and
returned as a 400. -/
def signup (db : DB) (username pw email : String) : Except Err (Nat × DB) :=
  match bcryptHash .passportModule with
  | .error e => .error e
  | .ok hash =>
    if db.users.any (fun u => u.username == username || u.email == email) then
      .error (.dbError "Unique constraint failed")
    else
      let uid := (db.users.map User.id).foldr max 0 + 1
      .ok (uid, { db with users := db.users ++ [⟨uid, username, email, hash⟩] })

/-- The passport `LocalStrategy` callback (src/unnamed/part_001 lines 8-32):
find the user by username; `User not found` if absent; compare the submitted
password against the stored hash; `Wrong password` on mismatch; otherwise pass
the full user row to `done`. -/
def verifyLocal (db : DB) (username pw : String) : Except String User :=
  match db.users.find? (fun u => u.username == username) with
  | none => .error "User not found"
  | some u =>
    if bcryptCompare pw u.password then .ok u else .error "Wrong password"

/-- passport `deserializeUser` (src/unnamed/part_001 lines 39-48): loads the
full User row for the id stored in the session and installs it as `req.user`. -/
def deserializeUser (db : DB) (id : Nat) : Option User :=
  db.users.find? (fun u => u.id == id)

/-- The body of the 200 response of POST `/auth/login`. -/
structure LoginResponse where
  message : String
  user : User
deriving Repr, DecidableEq

/-- POST `/auth/login` (src/index.ts lines 82-87): `passport.authenticate("local")`
runs the LocalStrategy; on success the route responds with
`{message: "Logged in!", user: req.user}` where `req.user` is the user row the
strategy produced. -/
def login (db : DB) (username pw : String) : Except String LoginResponse :=
  match verifyLocal db username pw with
  | .error e => .error e
  | .ok u => .ok ⟨"Logged in!", u⟩

/-- The register-then-verify round trip of claim C1: sign up, then authenticate
with the same credentials, asking for a principal whose id matches the
registered id. -/
def registerThenVerify (db : DB) (username pw email : String) :
    Except Err (Nat × User) :=
  match signup db username pw email with
  | .error e => .error e
  | .ok (uid, db') =>
    match verifyLocal db' username pw with
    | .error _ => .error (.dbError "AuthFailure")
    | .ok u => .ok (uid, u)

/-- C1: for every signup, `register(username, email, rawPassword)` followed by
`verify(username, rawPassword)` is claimed to succeed with a principal whose id
equals the registered UserId.  On the code it never does: the signup handler
hashes the `passport` module object instead of the password, so bcryptjs
rejects with `Illegal arguments` and signup always returns 400 — no user row is
ever created and the round trip always fails.  Evaluated concretely at the
failing input ("alice", "alice@example.com", "secret123") on an empty store. -/
theorem c1_register_verify_always_fails :
    (∀ (db : DB) (username pw email : String),
      signup db username pw email = .error .illegalArguments ∧
      registerThenVerify db username pw email = .error .illegalArguments) ∧
    registerThenVerify ⟨[], [], []⟩ "alice" "secret123" "alice@example.com" =
      .error .illegalArguments := by
  refine ⟨fun db username pw email => ⟨rfl, rfl⟩, rfl⟩

/-! ### C3: the principal and the login response -/

/-- Second definition, following the spec's words (§4.2): the principal object
the access layer is claimed to produce — id, username and email only, the
credential excluded. -/
structure SpecPrincipal where
  id : Nat
  username : String
  email : String
deriving Repr, DecidableEq

/-- Spec-side predicate for C3: a login response "contains the credential in
some form" when the user object it carries has the stored password hash of some
user row in its `password` field. -/
def responseCarriesCredential (db : DB) (r : LoginResponse) : Bool :=
  db.users.any (fun u => u.password == r.user.password)

/-- A one-user database whose stored credential is the hash of "pw". -/
def exampleAuthDB : DB :=
  ⟨[⟨1, "alice", "alice@example.com", "$2a$10$pw"⟩], [], []⟩

/-- C3 counterexample: on `exampleAuthDB`, logging in as alice succeeds and the
response's `user` field is the full stored row — its `password` field equals
the stored credential hash `$2a$10$pw`, so the login response does contain the
stored credential, contradicting "the credential is excluded". -/
theorem c3_counterexample :
    login exampleAuthDB "alice" "pw" =
      .ok ⟨"Logged in!", ⟨1, "alice", "alice@example.com", "$2a$10$pw"⟩⟩ ∧
    (login exampleAuthDB "alice" "pw").toOption.map
      (fun r => responseCarriesCredential exampleAuthDB r) = some true := by
  exact ⟨rfl, rfl⟩

/-- C3 amended: every successful login returns as `user` the full stored User
row — it does contain id, username and email, but also the stored password
credential verbatim (and likewise `deserializeUser` installs the full row as
the request principal). -/
theorem c3_amended_login_returns_full_row (db : DB) (un pw : String)
    (r : LoginResponse) (h : login db un pw = .ok r) :
    r.user ∈ db.users ∧ r.user.username = un ∧
    bcryptCompare pw r.user.password = true ∧
    responseCarriesCredential db r = true := by
  unfold login at h
  rcases hv : verifyLocal db un pw with e | u
  · rw [hv] at h; exact absurd h (by simp)
  · rw [hv] at h
    simp only [Except.ok.injEq] at h
    have hu : r.user = u := congrArg LoginResponse.user h.symm
    unfold verifyLocal at hv
    rcases hfind : db.users.find? (fun w => w.username == un) with _ | w
    · rw [hfind] at hv; exact absurd hv (by simp)
    · rw [hfind] at hv
      dsimp only at hv
      rcases hcmp : bcryptCompare pw w.password with _ | _
      · rw [hcmp] at hv; exact absurd hv (by simp)
      · rw [hcmp] at hv
        simp only [if_true, Except.ok.injEq] at hv
        have hmem : w ∈ db.users := List.mem_of_find?_eq_some hfind
        have hname : w.username = un := by
          have := List.find?_some hfind
          simpa using this
        have hwu : r.user = w := by rw [hu, hv]
        rw [hwu]
        refine ⟨hmem, hname, hcmp, ?_⟩
        unfold responseCarriesCredential
        rw [hwu]
        simp only [List.any_eq_true]
        exact ⟨w, hmem, by simp⟩

/-- Witness for the amended C3 at a concrete input: the hypotheses of
`c3_amended_login_returns_full_row` are discharged on `exampleAuthDB`. -/
theorem c3_amended_witness :
    (⟨1, "alice", "alice@example.com", "$2a$10$pw"⟩ : User) ∈ exampleAuthDB.users ∧
    responseCarriesCredential exampleAuthDB
      ⟨"Logged in!", ⟨1, "alice", "alice@example.com", "$2a$10$pw"⟩⟩ = true := by
  have h := c3_amended_login_returns_full_row exampleAuthDB "alice" "pw"
    ⟨"Logged in!", ⟨1, "alice", "alice@example.com", "$2a$10$pw"⟩⟩ rfl
  exact ⟨h.1, h.2.2.2⟩

/-! ### Access Gateway: the `requireAuth` middleware -/

/-- `requireAuth` (src/routes/file.ts lines 12-17): 401 when `req.user` is
absent, otherwise pass the principal through. -/
def requireAuth (user? : Option User) : Except Err User :=
  match user? with
  | none => .error .unauthenticated
  | some u => .ok u

/-! ### Object Store: the multer configuration (src/unnamed/part_001 lines 51-94) -/

/-- Boolean substring test: `strHasSub hay tok` holds when `tok` occurs
contiguously inside `hay`.  This is what an unanchored JavaScript regex
`/tok/.test(hay)` computes for a literal alternative `tok`. -/
def strHasSub (hay tok : String) : Bool :=
  let h := hay.toList
  let t := tok.toList
  (List.range (h.length + 1)).any (fun i => (h.drop i).take t.length == t)

/-- The alternatives of the regex `/jpeg|jpg|png|gif|pdf|txt|doc|docx/`. -/
def allowedTokens : List String :=
  ["jpeg", "jpg", "png", "gif", "pdf", "txt", "doc", "docx"]

/-- `allowedTypes.test(s)`: the unanchored regex matches iff some alternative
occurs as a substring of `s`. -/
def allowedTest (s : String) : Bool :=
  allowedTokens.any (fun t => strHasSub s t)

/-- The extension part of a list of characters: everything from the last `.`
(inclusive) to the end, if any `.` occurs. -/
def extFrom : List Char → Option (List Char)
  | [] => none
  | c :: rest =>
    match extFrom rest with
    | some e => some e
    | none => if c == '.' then some (c :: rest) else none

/-- Node's `path.extname`: the extension of the basename (the part after the
last `/`) from its last dot to the end (dot included); empty when the basename
has no dot past its first character (so `.bashrc` has extension `""`). -/
def extname (p : String) : String :=
  let base := (p.toList.reverse.takeWhile (fun c => c != '/')).reverse
  match base with
  | [] => ""
  | _ :: rest =>
    match extFrom rest with
    | some e => String.mk e
    | none => ""

/-- JavaScript `String.prototype.toLowerCase` on the ASCII filenames and
mimetypes at play: lowercase each character. -/
def lowerStr (s : String) : String :=
  String.mk (s.toList.map Char.toLower)

/-- The file a multipart request declares: original filename, client-declared
mimetype, and byte size of the content stream. -/
structure IncomingFile where
  originalname : String
  mimetype : String
  size : Nat
deriving Repr, DecidableEq

/-- `req.file` as multer hands it to the route handler after placement. -/
structure PlacedFile where
  originalname : String
  size : Nat
  path : String
deriving Repr, DecidableEq

/-- The multer `fileFilter` (src/unnamed/part_001 lines 74-87): accept iff the
unanchored regex matches the lowercased `path.extname(originalname)` AND the
declared mimetype; otherwise the filter raises
`Only images, PDFs, and documents allowed!`. -/
def fileFilter (f : IncomingFile) : Bool :=
  allowedTest (lowerStr (extname f.originalname)) && allowedTest f.mimetype

/-- The upload size cap: `limits.fileSize = 5 * 1024 * 1024` bytes. -/
def maxFileSize : Nat := 5 * 1024 * 1024

/-- The storage filename policy (src/unnamed/part_001 lines 62-71): destination
`uploads/`, filename `Date.now()-originalname`; `ts` stands for `Date.now()`. -/
def storagePath (ts : Nat) (originalname : String) : String :=
  "uploads/" ++ toString ts ++ "-" ++ originalname

/-- `upload.single("file")`: multer runs `fileFilter` when the file part
arrives; an accepted file is streamed to disk subject to the `LIMIT_FILE_SIZE`
check (a stream longer than the cap aborts with `tooLarge`); a surviving file
is durably placed at `storagePath` and described to the handler as `req.file`. -/
def multerSingle (disk : List String) (ts : Nat) (f : IncomingFile) :
    Except Err (PlacedFile × List String) :=
  if fileFilter f then
    if f.size > maxFileSize then .error .tooLarge
    else
      let p := storagePath ts f.originalname
      .ok (⟨f.originalname, f.size, p⟩, p :: disk)
  else .error .rejectedType

/-! ### Catalog: the `/api` routes (src/routes/file.ts) -/

/-- Fresh autoincrement id for a list of existing ids. -/
def nextId (ids : List Nat) : Nat := ids.foldr max 0 + 1

/-- The 201 body of POST `/api/upload`. -/
structure UploadResponse where
  message : String
  file : FileRec
deriving Repr, DecidableEq

/-- POST `/api/upload` (src/routes/file.ts lines 20-48): `requireAuth`, then
`upload.single("file")`, then the handler: 400 if `req.file` is missing,
otherwise `prisma.file.create` with name/filename = originalname, size =
`size.toString()`, path, userId — and no `folderId`, so the column gets its
default `null`.  `dbFail` models the metadata write throwing (caught as a 500);
note the catch block does not remove the just-placed content. -/
def uploadRoute (sys : Sys) (user? : Option User) (ts : Nat)
    (file? : Option IncomingFile) (dbFail : Bool) :
    Except Err UploadResponse × Sys :=
  match requireAuth user? with
  | .error e => (.error e, sys)
  | .ok u =>
    match file? with
    | none => (.error .noFile, sys)
    | some f =>
      match multerSingle sys.disk ts f with
      | .error e => (.error e, sys)
      | .ok (pf, disk') =>
        let sys' : Sys := { sys with disk := disk' }
        if dbFail then (.error (.dbError "metadata write failed"), sys')
        else
          let fid := nextId (sys.db.files.map FileRec.id)
          let row : FileRec :=
            ⟨fid, pf.originalname, pf.originalname, toString pf.size, pf.path, u.id, none⟩
          (.ok ⟨"File uploaded!", row⟩,
           { sys' with db := { sys.db with files := sys.db.files ++ [row] } })

/-- GET `/api/files` (src/routes/file.ts lines 65-74): `findMany` where
`userId = req.user.id`. -/
def listFiles (db : DB) (user? : Option User) : Except Err (List FileRec) :=
  match requireAuth user? with
  | .error e => .error e
  | .ok u => .ok (db.files.filter (fun f => f.userId == u.id))

/-- POST `/api/folders` (src/routes/file.ts lines 77-95): create a Folder row
owned by the principal; no constraint on the name. -/
def createFolder (db : DB) (user? : Option User) (name : String) :
    Except Err (Folder × DB) :=
  match requireAuth user? with
  | .error e => .error e
  | .ok u =>
    let fid := nextId (db.folders.map Folder.id)
    let fo : Folder := ⟨fid, name, u.id⟩
    .ok (fo, { db with folders := db.folders ++ [fo] })

/-- A folder together with the files it contains, as GET `/api/folders`
returns it (`include: { files: true }`). -/
structure FolderWithFiles where
  folder : Folder
  files : List FileRec
deriving Repr, DecidableEq

/-- GET `/api/folders` (src/routes/file.ts lines 98-110): `findMany` where
`userId = req.user.id`, each folder with its nested files. -/
def listFolders (db : DB) (user? : Option User) :
    Except Err (List FolderWithFiles) :=
  match requireAuth user? with
  | .error e => .error e
  | .ok u =>
    .ok ((db.folders.filter (fun fo => fo.userId == u.id)).map
      (fun fo => ⟨fo, db.files.filter (fun f => f.folderId == some fo.id)⟩))

/-- Prisma `file.update({where: {id}, data: {folderId}})`: rewrite the row(s)
with that id. -/
def fileUpdate (files : List FileRec) (fileId : Nat) (folderId : Option Nat) :
    List FileRec :=
  files.map (fun f => if f.id == fileId then { f with folderId := folderId } else f)

/-- PATCH `/api/files/:fileId/move` (src/routes/file.ts lines 113-143):
`findFirst` where id = fileId AND userId = principal — 404 `File not found`
when that returns nothing (absent row and foreign-owned row alike); then
`file.update` setting folderId (or null).  The route never inspects the target
folder; only the database's foreign-key integrity rejects a folderId that
references no Folder row at all (surfaced as a 500), with no check that the
folder's owner is the principal. -/
def moveFile (db : DB) (user? : Option User) (fileId : Nat)
    (folderId : Option Nat) : Except Err (FileRec × DB) :=
  match requireAuth user? with
  | .error e => .error e
  | .ok u =>
    match db.files.find? (fun f => f.id == fileId && f.userId == u.id) with
    | none => .error .notFound
    | some f =>
      match folderId with
      | some gid =>
        if db.folders.any (fun fo => fo.id == gid) then
          .ok ({ f with folderId := some gid },
               { db with files := fileUpdate db.files fileId (some gid) })
        else .error (.dbError "Foreign key constraint failed")
      | none =>
        .ok ({ f with folderId := none },
             { db with files := fileUpdate db.files fileId none })

/-- The filesystem step of DELETE (src/routes/file.ts lines 162-165):
`if (fs.existsSync(path)) fs.unlinkSync(path)` — removal is attempted only
when the content is present, so an already-absent path is a no-op, never an
error. -/
def removeContent (disk : List String) (p : String) : Except Err (List String) :=
  if p ∈ disk then .ok (disk.erase p) else .ok disk

/-- DELETE `/api/files/:fileId` (src/routes/file.ts lines 146-177): the same
`findFirst` ownership lookup and identical 404; then the guarded filesystem
removal; then `prisma.file.delete`. -/
def deleteFile (sys : Sys) (user? : Option User) (fileId : Nat) :
    Except Err Sys :=
  match requireAuth user? with
  | .error e => .error e
  | .ok u =>
    match sys.db.files.find? (fun f => f.id == fileId && f.userId == u.id) with
    | none => .error .notFound
    | some f =>
      match removeContent sys.disk f.path with
      | .error e => .error e
      | .ok disk' =>
        .ok ⟨{ sys.db with files := sys.db.files.filter (fun g => g.id != fileId) },
             disk'⟩

/-- What `res.download(file.path, file.name)` serves. -/
structure Download where
  path : String
  name : String
deriving Repr, DecidableEq

/-- GET `/api/files/:fileId/download` (src/routes/file.ts lines 180-207): the
same ownership lookup and identical 404 `File not found`; then a distinct 404
`File not found on server` when the owned row's path has no content; otherwise
serve the content under the original name. -/
def downloadFile (sys : Sys) (user? : Option User) (fileId : Nat) :
    Except Err Download :=
  match requireAuth user? with
  | .error e => .error e
  | .ok u =>
    match sys.db.files.find? (fun f => f.id == fileId && f.userId == u.id) with
    | none => .error .notFound
    | some f =>
      if f.path ∈ sys.disk then .ok ⟨f.path, f.name⟩
      else .error .notFoundOnServer

/-! ### C4: NotFound conflates "absent" and "not owned by you" -/

/-- C4: when no File row with id `fid` owned by `u` exists — which covers both
"no row with that id at all" and "a row with that id owned by someone else" —
the move, delete and download routes all fail with the same 404
`File not found`; the two failure cases are observationally identical because
the single `findFirst` lookup cannot distinguish them. -/
theorem c4_notfound_conflates_absent_and_foreign (sys : Sys) (u : User)
    (fid : Nat) (target : Option Nat)
    (h : ∀ f ∈ sys.db.files, f.id = fid → f.userId ≠ u.id) :
    moveFile sys.db (some u) fid target = .error .notFound ∧
    deleteFile sys (some u) fid = .error .notFound ∧
    downloadFile sys (some u) fid = .error .notFound := by
  have hfind : sys.db.files.find? (fun f => f.id == fid && f.userId == u.id) = none := by
    rw [List.find?_eq_none]
    intro f hf
    simp only [Bool.and_eq_true, beq_iff_eq, not_and]
    exact fun hid => h f hf hid
  refine ⟨?_, ?_, ?_⟩
  · unfold moveFile requireAuth
    dsimp only
    rw [hfind]
  · unfold deleteFile requireAuth
    dsimp only
    rw [hfind]
  · unfold downloadFile requireAuth
    dsimp only
    rw [hfind]

/-- Witness for C4: user 1 probing file id 1 — the only row with id 1 belongs
to user 2, so the hypothesis holds, and all three routes answer the identical
404; the same theorem applied to an empty file table gives the absent case. -/
theorem c4_witness :
    ((∀ f ∈ (⟨⟨[], [⟨1, "a.png", "a.png", "3", "uploads/9-a.png", 2, none⟩], []⟩,
        ["uploads/9-a.png"]⟩ : Sys).db.files, f.id = 1 → f.userId ≠ 1) ∧
      moveFile ⟨[], [⟨1, "a.png", "a.png", "3", "uploads/9-a.png", 2, none⟩], []⟩
        (some ⟨1, "alice", "alice@example.com", "$2a$10$pa"⟩) 1 none = .error .notFound ∧
      deleteFile ⟨⟨[], [⟨1, "a.png", "a.png", "3", "uploads/9-a.png", 2, none⟩], []⟩,
        ["uploads/9-a.png"]⟩
        (some ⟨1, "alice", "alice@example.com", "$2a$10$pa"⟩) 1 = .error .notFound ∧
      downloadFile ⟨⟨[], [⟨1, "a.png", "a.png", "3", "uploads/9-a.png", 2, none⟩], []⟩,
        ["uploads/9-a.png"]⟩
        (some ⟨1, "alice", "alice@example.com", "$2a$10$pa"⟩) 1 = .error .notFound) := by
  refine ⟨by decide, ?_⟩
  exact c4_notfound_conflates_absent_and_foreign
    ⟨⟨[], [⟨1, "a.png", "a.png", "3", "uploads/9-a.png", 2, none⟩], []⟩, ["uploads/9-a.png"]⟩
    ⟨1, "alice", "alice@example.com", "$2a$10$pa"⟩ 1 none (by decide)

/-! ### C5: the accepted-extension check -/

/-- Second definition for C5, following the spec's words: the declared
filename's extension (lowercased, without its dot) is a member of the accepted
set {jpeg, jpg, png, gif, pdf, txt, doc, docx}. -/
def specExtInAcceptedSet (name : String) : Bool :=
  allowedTokens.any (fun t => lowerStr (extname name) == "." ++ t)

/-- C5 counterexample: the filter's regex is unanchored, so it tests substring
containment, not set membership.  `evil.pdfx` has extension `.pdfx`, outside
the accepted set, yet the upload is accepted (both `.pdfx` and
`application/pdf` contain `pdf`) — refuting "no file whose extension is
outside this set is ever accepted".  Conversely `notes.txt` has extension
`.txt`, inside the set, yet is rejected because the declared mimetype
`text/plain` contains no accepted token — refuting the "only if" direction. -/
theorem c5_counterexample :
    multerSingle [] 0 ⟨"evil.pdfx", "application/pdf", 10⟩ =
      .ok (⟨"evil.pdfx", 10, "uploads/0-evil.pdfx"⟩, ["uploads/0-evil.pdfx"]) ∧
    specExtInAcceptedSet "evil.pdfx" = false ∧
    multerSingle [] 0 ⟨"notes.txt", "text/plain", 10⟩ = .error .rejectedType ∧
    specExtInAcceptedSet "notes.txt" = true := by decide

/-- C5 amended: an upload is rejected with `RejectedType` iff the unanchored
regex `jpeg|jpg|png|gif|pdf|txt|doc|docx` fails to match a substring of the
lowercased extension of the declared name, or fails to match a substring of the
declared mimetype.  (So extensions that merely contain an accepted token are
accepted, and accepted extensions with a token-free mimetype are rejected.) -/
theorem c5_amended_reject_iff_regex_fails (disk : List String) (ts : Nat)
    (f : IncomingFile) :
    multerSingle disk ts f = .error .rejectedType ↔
      ¬ (allowedTest (lowerStr (extname f.originalname)) = true ∧
         allowedTest f.mimetype = true) := by
  by_cases hs : f.size > maxFileSize <;>
    rcases h1 : allowedTest (lowerStr (extname f.originalname)) <;>
      rcases h2 : allowedTest f.mimetype <;>
        simp [multerSingle, fileFilter, h1, h2, hs]

/-! ### C7: the 5 MiB size cap -/

/-- C7 counterexample: a 6 MiB upload whose name and mimetype both fail the
type filter is rejected with `RejectedType`, not `TooLarge` — the filter runs
when the file part arrives, before the streaming size limit — so "fails with
TooLarge iff the byte size exceeds 5 MiB" does not hold unconditionally. -/
theorem c7_counterexample :
    6 * 1024 * 1024 > maxFileSize ∧
    multerSingle [] 0 ⟨"big.exe", "application/octet-stream", 6 * 1024 * 1024⟩ =
      .error .rejectedType ∧
    (multerSingle [] 0 ⟨"big.exe", "application/octet-stream", 6 * 1024 * 1024⟩ ≠
      .error .tooLarge) := by decide

/-- C7 amended: an upload fails with `TooLarge` iff it passes the type filter
and its byte size exceeds 5 MiB (5 * 1024 * 1024 bytes); and no upload of at
most 5 MiB is ever rejected for size. -/
theorem c7_amended_toolarge_iff (disk : List String) (ts : Nat)
    (f : IncomingFile) :
    (multerSingle disk ts f = .error .tooLarge ↔
      fileFilter f = true ∧ f.size > maxFileSize) ∧
    (f.size ≤ maxFileSize → multerSingle disk ts f ≠ .error .tooLarge) := by
  by_cases hs : f.size > maxFileSize <;>
    rcases hf : fileFilter f <;>
      simp [multerSingle, hf, hs]

/-! ### C8: delete is robust to already-absent content -/

/-- C8: for a File row the caller owns whose content is already absent from
disk, `deleteFile` still succeeds (the `existsSync` guard turns the unlink into
a no-op), and `removeContent` never fails — in particular a second removal of
the same path after a first one also succeeds. -/
theorem c8_delete_tolerates_absent_content (sys : Sys) (u : User) (fid : Nat)
    (f : FileRec)
    (hfind : sys.db.files.find? (fun g => g.id == fid && g.userId == u.id) = some f)
    (habs : f.path ∉ sys.disk) :
    deleteFile sys (some u) fid =
      .ok ⟨{ sys.db with files := sys.db.files.filter (fun g => g.id != fid) },
           sys.disk⟩ ∧
    removeContent sys.disk f.path = .ok sys.disk ∧
    (∀ (d : List String) (p : String), ∃ d' d'',
      removeContent d p = .ok d' ∧ removeContent d' p = .ok d'') := by
  have hrem : removeContent sys.disk f.path = .ok sys.disk := by
    unfold removeContent
    rw [if_neg habs]
  refine ⟨?_, hrem, ?_⟩
  · unfold deleteFile requireAuth
    dsimp only
    rw [hfind]
    dsimp only
    rw [hrem]
  · have hnf : ∀ (d : List String) (p : String), ∃ d',
        removeContent d p = .ok d' := by
      intro d p
      unfold removeContent
      split
      · exact ⟨d.erase p, rfl⟩
      · exact ⟨d, rfl⟩
    intro d p
    obtain ⟨d', h1⟩ := hnf d p
    obtain ⟨d'', h2⟩ := hnf d' p
    exact ⟨d', d'', h1, h2⟩

/-- Witness for C8: alice deletes her file id 1 whose path is not on disk; the
delete succeeds and the double-removal always succeeds. -/
theorem c8_witness :
    ((⟨⟨[], [⟨1, "a.png", "a.png", "3", "uploads/9-a.png", 1, none⟩], []⟩,
        []⟩ : Sys).db.files.find?
        (fun g => g.id == 1 && g.userId ==
          (⟨1, "alice", "alice@example.com", "$2a$10$pa"⟩ : User).id) =
        some ⟨1, "a.png", "a.png", "3", "uploads/9-a.png", 1, none⟩) ∧
    deleteFile ⟨⟨[], [⟨1, "a.png", "a.png", "3", "uploads/9-a.png", 1, none⟩], []⟩, []⟩
      (some ⟨1, "alice", "alice@example.com", "$2a$10$pa"⟩) 1 =
      .ok ⟨⟨[], [], []⟩, []⟩ := by
  have h := c8_delete_tolerates_absent_content
    ⟨⟨[], [⟨1, "a.png", "a.png", "3", "uploads/9-a.png", 1, none⟩], []⟩, []⟩
    ⟨1, "alice", "alice@example.com", "$2a$10$pa"⟩ 1
    ⟨1, "a.png", "a.png", "3", "uploads/9-a.png", 1, none⟩ (by decide) (by decide)
  exact ⟨by decide, h.1⟩

/-! ### C9: listFiles returns exactly the caller's files -/

/-- C9: a successful `listFiles` for principal `u` returns a list containing a
File row iff that row is in the table and owned by `u.id`; in particular no
file owned by a different user ever appears. -/
theorem c9_listfiles_exactly_owned (db : DB) (u : User) (l : List FileRec)
    (h : listFiles db (some u) = .ok l) :
    ∀ f : FileRec, f ∈ l ↔ (f ∈ db.files ∧ f.userId = u.id) := by
  unfold listFiles requireAuth at h
  dsimp only at h
  simp only [Except.ok.injEq] at h
  subst h
  intro f
  simp [List.mem_filter]

/-- Witness for C9: two rows, one per user; alice's listing contains her row
and not bob's. -/
theorem c9_witness :
    listFiles ⟨[], [⟨1, "a.png", "a.png", "3", "uploads/1-a.png", 1, none⟩,
        ⟨2, "b.png", "b.png", "4", "uploads/2-b.png", 2, none⟩], []⟩
      (some ⟨1, "alice", "alice@example.com", "$2a$10$pa"⟩) =
      .ok [⟨1, "a.png", "a.png", "3", "uploads/1-a.png", 1, none⟩] ∧
    ((⟨2, "b.png", "b.png", "4", "uploads/2-b.png", 2, none⟩ : FileRec) ∈
        [(⟨1, "a.png", "a.png", "3", "uploads/1-a.png", 1, none⟩ : FileRec)] ↔
      ((⟨2, "b.png", "b.png", "4", "uploads/2-b.png", 2, none⟩ : FileRec) ∈
          [(⟨1, "a.png", "a.png", "3", "uploads/1-a.png", 1, none⟩ : FileRec),
           ⟨2, "b.png", "b.png", "4", "uploads/2-b.png", 2, none⟩] ∧
        (2 : Nat) = 1)) := by
  refine ⟨by decide, ?_⟩
  exact c9_listfiles_exactly_owned
    ⟨[], [⟨1, "a.png", "a.png", "3", "uploads/1-a.png", 1, none⟩,
       ⟨2, "b.png", "b.png", "4", "uploads/2-b.png", 2, none⟩], []⟩
    ⟨1, "alice", "alice@example.com", "$2a$10$pa"⟩
    [⟨1, "a.png", "a.png", "3", "uploads/1-a.png", 1, none⟩] (by decide)
    ⟨2, "b.png", "b.png", "4", "uploads/2-b.png", 2, none⟩

/-! ### C10: a fresh upload is unfiled -/

/-- C10: every successful upload creates its File row without a `folderId`
(the `prisma.file.create` data omits the column, so it gets `null`): the
response's file is unfiled and is the row appended to the table. -/
theorem c10_upload_starts_unfiled (sys : Sys) (user? : Option User) (ts : Nat)
    (file? : Option IncomingFile) (dbFail : Bool) (resp : UploadResponse)
    (sys' : Sys) (h : uploadRoute sys user? ts file? dbFail = (.ok resp, sys')) :
    resp.file.folderId = none ∧ resp.file ∈ sys'.db.files := by
  unfold uploadRoute requireAuth at h
  rcases user? with _ | u
  · exact absurd h (by simp)
  · dsimp only at h
    rcases file? with _ | f
    · exact absurd h (by simp)
    · dsimp only at h
      rcases hm : multerSingle sys.disk ts f with e | pd
      · rw [hm] at h; exact absurd h (by simp)
      · rw [hm] at h
        rcases pd with ⟨pf, disk'⟩
        dsimp only at h
        rcases dbFail with _ | _
        · rw [if_neg Bool.false_ne_true] at h
          simp only [Prod.mk.injEq, Except.ok.injEq] at h
          rcases h with ⟨hresp, hsys⟩
          subst hresp
          subst hsys
          exact ⟨rfl, by simp⟩
        · rw [if_pos rfl] at h
          exact absurd h (by simp)

/-- Witness for C10: a concrete successful upload by alice; the created row is
unfiled. -/
theorem c10_witness :
    uploadRoute ⟨⟨[⟨1, "alice", "alice@example.com", "$2a$10$pa"⟩], [], []⟩, []⟩
      (some ⟨1, "alice", "alice@example.com", "$2a$10$pa"⟩) 7
      (some ⟨"a.png", "image/png", 3⟩) false =
      (.ok ⟨"File uploaded!", ⟨1, "a.png", "a.png", "3", "uploads/7-a.png", 1, none⟩⟩,
       ⟨⟨[⟨1, "alice", "alice@example.com", "$2a$10$pa"⟩],
         [⟨1, "a.png", "a.png", "3", "uploads/7-a.png", 1, none⟩], []⟩,
        ["uploads/7-a.png"]⟩) ∧
    (⟨1, "a.png", "a.png", "3", "uploads/7-a.png", 1, none⟩ : FileRec).folderId = none := by
  refine ⟨by decide, ?_⟩
  exact (c10_upload_starts_unfiled
    ⟨⟨[⟨1, "alice", "alice@example.com", "$2a$10$pa"⟩], [], []⟩, []⟩
    (some ⟨1, "alice", "alice@example.com", "$2a$10$pa"⟩) 7
    (some ⟨"a.png", "image/png", 3⟩) false
    ⟨"File uploaded!", ⟨1, "a.png", "a.png", "3", "uploads/7-a.png", 1, none⟩⟩
    ⟨⟨[⟨1, "alice", "alice@example.com", "$2a$10$pa"⟩],
      [⟨1, "a.png", "a.png", "3", "uploads/7-a.png", 1, none⟩], []⟩,
     ["uploads/7-a.png"]⟩ (by decide)).1

/-! ### C2: folder ownership and reachable states

The Identity Store is consulted only at login/signup, independently of the
catalog (spec §2), so catalog states are generated from an initial state with
a given user table and no files or folders, by the authenticated catalog
operations. -/

/-- The catalog's initial state for a given user table: no files, no folders,
no content on disk. -/
def initialSys (users : List User) : Sys := ⟨⟨users, [], []⟩, []⟩

/-- States of the system reachable from `s0` through the authenticated catalog
operations of the routes (upload without a metadata failure, create folder,
move, delete), each performed by a user present in the user table. -/
inductive Reachable : Sys → Sys → Prop where
  | refl (s : Sys) : Reachable s s
  | stepUpload {s0 s s' : Sys} {u : User} {ts : Nat} {f : IncomingFile}
      {resp : UploadResponse} :
      Reachable s0 s → u ∈ s.db.users →
      uploadRoute s (some u) ts (some f) false = (.ok resp, s') →
      Reachable s0 s'
  | stepFolder {s0 s : Sys} {u : User} {name : String} {fo : Folder} {db' : DB} :
      Reachable s0 s → u ∈ s.db.users →
      createFolder s.db (some u) name = .ok (fo, db') →
      Reachable s0 ⟨db', s.disk⟩
  | stepMove {s0 s : Sys} {u : User} {fid : Nat} {target : Option Nat}
      {f : FileRec} {db' : DB} :
      Reachable s0 s → u ∈ s.db.users →
      moveFile s.db (some u) fid target = .ok (f, db') →
      Reachable s0 ⟨db', s.disk⟩
  | stepDelete {s0 s s' : Sys} {u : User} {fid : Nat} :
      Reachable s0 s → u ∈ s.db.users →
      deleteFile s (some u) fid = .ok s' →
      Reachable s0 s'

/-- The owner-match invariant of claim C2 (executable form): every File with a
non-null folderId sits in a Folder owned by the same user as the File. -/
def ownerInvariantB (db : DB) : Bool :=
  db.files.all (fun f =>
    match f.folderId with
    | none => true
    | some gid => db.folders.all (fun fo => fo.id != gid || fo.userId == f.userId))

/-- Fixture user: alice, id 1. -/
def uAlice : User := ⟨1, "alice", "alice@example.com", "$2a$10$pa"⟩

/-- Fixture user: bob, id 2. -/
def uBob : User := ⟨2, "bob", "bob@example.com", "$2a$10$pb"⟩

/-- C2 counterexample: from the initial state with users alice and bob, bob
creates folder 1, alice uploads file 1, and alice successfully moves her file
into bob's folder — `moveFile` checks only the file's owner, never the target
folder's.  The resulting state is reachable and violates the owner-match
invariant: file 1 (owner 1) sits in folder 1 (owner 2). -/
theorem c2_counterexample :
    Reachable (initialSys [uAlice, uBob])
      ⟨⟨[uAlice, uBob],
        [⟨1, "r.png", "r.png", "3", "uploads/100-r.png", 1, some 1⟩],
        [⟨1, "bobs", 2⟩]⟩,
       ["uploads/100-r.png"]⟩ ∧
    moveFile ⟨[uAlice, uBob],
        [⟨1, "r.png", "r.png", "3", "uploads/100-r.png", 1, none⟩],
        [⟨1, "bobs", 2⟩]⟩ (some uAlice) 1 (some 1) =
      .ok (⟨1, "r.png", "r.png", "3", "uploads/100-r.png", 1, some 1⟩,
           ⟨[uAlice, uBob],
            [⟨1, "r.png", "r.png", "3", "uploads/100-r.png", 1, some 1⟩],
            [⟨1, "bobs", 2⟩]⟩) ∧
    ownerInvariantB
      ⟨[uAlice, uBob],
       [⟨1, "r.png", "r.png", "3", "uploads/100-r.png", 1, some 1⟩],
       [⟨1, "bobs", 2⟩]⟩ = false := by
  refine ⟨?_, by decide, by decide⟩
  have h1 : createFolder (initialSys [uAlice, uBob]).db (some uBob) "bobs" =
      .ok (⟨1, "bobs", 2⟩, ⟨[uAlice, uBob], [], [⟨1, "bobs", 2⟩]⟩) := by decide
  have h2 : uploadRoute ⟨⟨[uAlice, uBob], [], [⟨1, "bobs", 2⟩]⟩, []⟩
      (some uAlice) 100 (some ⟨"r.png", "image/png", 3⟩) false =
      (.ok ⟨"File uploaded!", ⟨1, "r.png", "r.png", "3", "uploads/100-r.png", 1, none⟩⟩,
       ⟨⟨[uAlice, uBob],
         [⟨1, "r.png", "r.png", "3", "uploads/100-r.png", 1, none⟩],
         [⟨1, "bobs", 2⟩]⟩,
        ["uploads/100-r.png"]⟩) := by decide
  have h3 : moveFile ⟨[uAlice, uBob],
      [⟨1, "r.png", "r.png", "3", "uploads/100-r.png", 1, none⟩],
      [⟨1, "bobs", 2⟩]⟩ (some uAlice) 1 (some 1) =
      .ok (⟨1, "r.png", "r.png", "3", "uploads/100-r.png", 1, some 1⟩,
           ⟨[uAlice, uBob],
            [⟨1, "r.png", "r.png", "3", "uploads/100-r.png", 1, some 1⟩],
            [⟨1, "bobs", 2⟩]⟩) := by decide
  exact Reachable.stepMove
    (Reachable.stepUpload
      (Reachable.stepFolder (Reachable.refl (initialSys [uAlice, uBob]))
        (by decide) h1)
      (by decide) h2)
    (by decide) h3

/-- C2 amended: a successful `moveFile` into folder `gid` guarantees that the
moved file is owned by the principal, that its folderId becomes `gid`, and that
some Folder row with id `gid` exists — but nothing relates that folder's owner
to the principal, so a file may end up in a folder owned by a different user
(as `c2_counterexample` realizes), and the owner-match invariant does not hold
in all reachable states. -/
theorem c2_amended_move_ignores_folder_owner (db : DB) (u : User) (fid gid : Nat)
    (f : FileRec) (db' : DB)
    (h : moveFile db (some u) fid (some gid) = .ok (f, db')) :
    f.userId = u.id ∧ f.folderId = some gid ∧
    (∃ fo ∈ db.folders, fo.id = gid) ∧
    db'.files = fileUpdate db.files fid (some gid) := by
  unfold moveFile requireAuth at h
  dsimp only at h
  rcases hfind : db.files.find? (fun g => g.id == fid && g.userId == u.id) with _ | f0
  · rw [hfind] at h; exact absurd h (by simp)
  · rw [hfind] at h
    dsimp only at h
    rcases hany : db.folders.any (fun fo => fo.id == gid) with _ | _
    · rw [hany] at h
      exact absurd h (by simp)
    · rw [hany] at h
      simp only [if_pos, Except.ok.injEq, Prod.mk.injEq] at h
      rcases h with ⟨hf, hdb⟩
      have hpred := List.find?_some hfind
      simp only [Bool.and_eq_true, beq_iff_eq] at hpred
      have hex : ∃ fo ∈ db.folders, fo.id = gid := by
        rcases List.any_eq_true.mp hany with ⟨fo, hmem, hfo⟩
        exact ⟨fo, hmem, by simpa using hfo⟩
      refine ⟨?_, ?_, hex, by rw [← hdb]⟩
      · rw [← hf]; exact hpred.2
      · rw [← hf]

/-- Witness for the amended C2: alice's concrete move of her file 1 into bob's
folder 1 discharges the hypothesis; the conclusion holds with folder 1 owned by
bob, not alice. -/
theorem c2_amended_witness :
    (⟨1, "r.png", "r.png", "3", "uploads/100-r.png", 1, some 1⟩ : FileRec).userId =
      uAlice.id ∧
    (∃ fo ∈ [(⟨1, "bobs", 2⟩ : Folder)], fo.id = 1) := by
  have h := c2_amended_move_ignores_folder_owner
    ⟨[uAlice, uBob],
     [⟨1, "r.png", "r.png", "3", "uploads/100-r.png", 1, none⟩],
     [⟨1, "bobs", 2⟩]⟩ uAlice 1 1
    ⟨1, "r.png", "r.png", "3", "uploads/100-r.png", 1, some 1⟩
    ⟨[uAlice, uBob],
     [⟨1, "r.png", "r.png", "3", "uploads/100-r.png", 1, some 1⟩],
     [⟨1, "bobs", 2⟩]⟩ (by decide)
  exact ⟨h.1, h.2.2.1⟩

/-! ### C6: orphan cleanup after a metadata-write failure -/

/-- C6 counterexample: alice uploads `a.png`; multer places the content at
`uploads/55-a.png`; the metadata write fails; the route's catch block only
reports a 500 — the placed content remains on disk and no File row exists, so
the claimed best-effort orphan cleanup does not happen. -/
theorem c6_counterexample :
    uploadRoute ⟨⟨[uAlice], [], []⟩, []⟩ (some uAlice) 55
      (some ⟨"a.png", "image/png", 4⟩) true =
      (.error (.dbError "metadata write failed"),
       ⟨⟨[uAlice], [], []⟩, ["uploads/55-a.png"]⟩) ∧
    "uploads/55-a.png" ∈ ["uploads/55-a.png"] ∧
    (⟨⟨[uAlice], [], []⟩, ["uploads/55-a.png"]⟩ : Sys).db.files = [] := by
  refine ⟨by decide, by decide, rfl⟩

/-- C6 amended: when the metadata write fails after multer has placed the
content, the upload fails with a 500 and the final state keeps the placed
content on disk while the database is unchanged — no orphan cleanup is
performed. -/
theorem c6_amended_no_cleanup (sys : Sys) (u : User) (ts : Nat)
    (f : IncomingFile) (pf : PlacedFile) (disk' : List String)
    (hm : multerSingle sys.disk ts f = .ok (pf, disk')) :
    uploadRoute sys (some u) ts (some f) true =
      (.error (.dbError "metadata write failed"), ⟨sys.db, disk'⟩) ∧
    pf.path ∈ disk' ∧ (⟨sys.db, disk'⟩ : Sys).db = sys.db := by
  have hpath : pf.path ∈ disk' := by
    unfold multerSingle at hm
    rcases hf : fileFilter f with _ | _
    · rw [hf] at hm; exact absurd hm (by simp)
    · rw [hf] at hm
      dsimp only [if_pos] at hm
      by_cases hs : f.size > maxFileSize
      · rw [if_pos hs] at hm; exact absurd hm (by simp)
      · rw [if_neg hs] at hm
        simp only [Except.ok.injEq, Prod.mk.injEq] at hm
        obtain ⟨rfl, rfl⟩ := hm
        exact List.mem_cons_self _ _
  refine ⟨?_, hpath, rfl⟩
  unfold uploadRoute requireAuth
  dsimp only
  rw [hm]
  rfl

/-- Witness for the amended C6: the concrete failed upload of `a.png` at
timestamp 55. -/
theorem c6_amended_witness :
    multerSingle ([] : List String) 55 ⟨"a.png", "image/png", 4⟩ =
      .ok (⟨"a.png", 4, "uploads/55-a.png"⟩, ["uploads/55-a.png"]) ∧
    uploadRoute ⟨⟨[uAlice], [], []⟩, []⟩ (some uAlice) 55
      (some ⟨"a.png", "image/png", 4⟩) true =
      (.error (.dbError "metadata write failed"),
       ⟨⟨[uAlice], [], []⟩, ["uploads/55-a.png"]⟩) ∧
    "uploads/55-a.png" ∈ ["uploads/55-a.png"] := by
  have h := c6_amended_no_cleanup ⟨⟨[uAlice], [], []⟩, []⟩ uAlice 55
    ⟨"a.png", "image/png", 4⟩ ⟨"a.png", 4, "uploads/55-a.png"⟩
    ["uploads/55-a.png"] (by decide)
  exact ⟨by decide, h.1, h.2.1⟩

end FileUploader
